import Mathlib

/-!
Verification of the core physics engine of `physics_sim.cpp`: the 2D vector
arithmetic, the circular-body model (`Ball`), wall reflection, pairwise
collision resolution, the per-frame update pipeline of `PhysicsSimulation`,
and the randomized grid seeder.

Embedding conventions:
* C++ `double` arithmetic is embedded as exact rational arithmetic (`ℚ`);
  the claims under study are exact-arithmetic statements.
* `sqrt` (used only inside `Vector2D::length`) has no exact counterpart on
  `ℚ`, so every operation that calls `length` takes an explicit square-root
  oracle `sq : ℚ → ℚ`; the predicate `IsSqrtAt sq q` states that `sq` is a
  genuine nonnegative square root at the point `q` where the code applies it.
* C++ `int` values are embedded as `ℤ` (window sizes, ids) or `ℕ` (counts);
  the `int` division in the seeder's spacing computation is embedded as
  truncating `Int.tdiv`, and its division by zero — undefined behaviour in
  C++ — is made explicit by returning `Option`.
* In-place mutation is embedded as explicit state passing: `resolveCollision`
  returns the updated pair, the per-frame sweep folds over an explicit list
  of index pairs, and the random generator is an explicit stream of draws.
-/

namespace PhysicsSim

/-- Planar vector value type, from `struct Vector2D` (`double x, y`). -/
structure Vector2D where
  x : ℚ
  y : ℚ
deriving DecidableEq

/-- Embedding of `Vector2D::operator+`: component-wise addition. -/
def Vector2D.add (v w : Vector2D) : Vector2D := ⟨v.x + w.x, v.y + w.y⟩

/-- Embedding of `Vector2D::operator-`: component-wise subtraction. -/
def Vector2D.sub (v w : Vector2D) : Vector2D := ⟨v.x - w.x, v.y - w.y⟩

/-- Embedding of `Vector2D::operator*(double scalar)`: scaling. -/
def Vector2D.smul (v : Vector2D) (s : ℚ) : Vector2D := ⟨v.x * s, v.y * s⟩

/-- Embedding of `Vector2D::dot`. -/
def Vector2D.dot (v w : Vector2D) : ℚ := v.x * w.x + v.y * w.y

/-- The radicand `x*x + y*y` appearing in `Vector2D::length`. -/
def Vector2D.normSq (v : Vector2D) : ℚ := v.x * v.x + v.y * v.y

/-- Embedding of `Vector2D::length`: `sqrt(x*x + y*y)`, with `sqrt` supplied as the
oracle `sq` (see module docstring). -/
def Vector2D.length (sq : ℚ → ℚ) (v : Vector2D) : ℚ := sq v.normSq

/-- Embedding of `Vector2D::normalize`: returns the zero vector when `length() == 0`,
otherwise divides both components by the length. -/
def Vector2D.normalize (sq : ℚ → ℚ) (v : Vector2D) : Vector2D :=
  let len := v.length sq
  if len = 0 then ⟨0, 0⟩ else ⟨v.x / len, v.y / len⟩

/-- States that `sq` behaves as the exact square root at the point `q`. -/
def IsSqrtAt (sq : ℚ → ℚ) (q : ℚ) : Prop := 0 ≤ sq q ∧ sq q * sq q = q

/-- Embedding of `SDL_Color` (four 8-bit channels). -/
structure Color where
  r : ℕ
  g : ℕ
  b : ℕ
  a : ℕ
deriving DecidableEq

/-- Embedding of `class Ball`: circular body with position, velocity, radius, mass,
color tag and id. -/
structure Ball where
  position : Vector2D
  velocity : Vector2D
  radius : ℚ
  mass : ℚ
  color : Color
  id : ℤ
deriving DecidableEq

instance : Inhabited Ball :=
  ⟨{ position := ⟨0, 0⟩, velocity := ⟨0, 0⟩, radius := 0, mass := 0,
     color := ⟨0, 0, 0, 0⟩, id := 0 }⟩

/-- Embedding of `Ball::update(double dt)`: `position = position + velocity * dt`. -/
def Ball.update (b : Ball) (dt : ℚ) : Ball :=
  { b with position := b.position.add (b.velocity.smul dt) }

/-- Embedding of `Ball::bounceOffWalls(int windowWidth, int windowHeight)`: per axis, an
`if / else if` pair clamping against the near wall at 0 or else the far wall
at the window dimension, negating that axis's velocity component. -/
def Ball.bounceOffWalls (b : Ball) (windowWidth windowHeight : ℤ) : Ball :=
  let b1 :=
    if b.position.x - b.radius ≤ 0 then
      { b with position := ⟨b.radius, b.position.y⟩,
               velocity := ⟨-b.velocity.x, b.velocity.y⟩ }
    else if b.position.x + b.radius ≥ (windowWidth : ℚ) then
      { b with position := ⟨(windowWidth : ℚ) - b.radius, b.position.y⟩,
               velocity := ⟨-b.velocity.x, b.velocity.y⟩ }
    else b
  if b1.position.y - b1.radius ≤ 0 then
    { b1 with position := ⟨b1.position.x, b1.radius⟩,
              velocity := ⟨b1.velocity.x, -b1.velocity.y⟩ }
  else if b1.position.y + b1.radius ≥ (windowHeight : ℚ) then
    { b1 with position := ⟨b1.position.x, (windowHeight : ℚ) - b1.radius⟩,
              velocity := ⟨b1.velocity.x, -b1.velocity.y⟩ }
  else b1

/-- Embedding of `Ball::isCollidingWith`: centers within the sum of radii. -/
def Ball.isCollidingWith (sq : ℚ → ℚ) (self other : Ball) : Bool :=
  decide ((self.position.sub other.position).length sq ≤ self.radius + other.radius)

/-- Embedding of `Ball::resolveCollision(Ball&)`: positional overlap separation weighted
by the opposite mass fractions, then (unless the bodies are separating along
the normal) the restitution-1 impulse; returns the updated `(self, other)`
pair. -/
def Ball.resolveCollision (sq : ℚ → ℚ) (self other : Ball) : Ball × Ball :=
  let distance0 := self.position.sub other.position
  let d0 := distance0.length sq
  -- avoid division by zero: `if (d == 0) { distance = Vector2D(1, 0); d = 1; }`
  let distance := if d0 = 0 then (⟨1, 0⟩ : Vector2D) else distance0
  let d := if d0 = 0 then 1 else d0
  let normal := distance.smul (1 / d)
  let overlap := (self.radius + other.radius) - d
  let totalMass := self.mass + other.mass
  let p1 := self.position.add (normal.smul (overlap * other.mass / totalMass))
  let p2 := other.position.sub (normal.smul (overlap * self.mass / totalMass))
  let relativeVelocity := self.velocity.sub other.velocity
  let velocityAlongNormal := relativeVelocity.dot normal
  if velocityAlongNormal > 0 then
    ({ self with position := p1 }, { other with position := p2 })
  else
    let impulse := 2 * velocityAlongNormal / totalMass
    ({ self with position := p1,
                 velocity := self.velocity.sub (normal.smul (impulse * other.mass)) },
     { other with position := p2,
                  velocity := other.velocity.add (normal.smul (impulse * self.mass)) })

/-- Kinetic energy `0.5 * mass * (vx*vx + vy*vy)` of one body, the summand
of `PhysicsSimulation::getTotalEnergy`. -/
def Ball.ke (b : Ball) : ℚ := 1 / 2 * b.mass * b.velocity.normSq

/-- One draw of the random generator for one seeded ball: the values the
seeder's distributions produce for it (`offsetDist` twice, `radiusDist`,
`velocityDist` twice with `signDist` twice, `massDist`, and the palette
index of `generateRandomColor`, which `uniform_int_distribution(0, 19)`
keeps in range). -/
structure Draw where
  offX : ℚ
  offY : ℚ
  radius : ℚ
  speedX : ℚ
  speedY : ℚ
  signX : Bool
  signY : Bool
  mass : ℚ
  colorIdx : Fin 20
deriving DecidableEq

/-- The fixed neon palette of `generateRandomColor`. -/
def neonColors : List Color :=
  [⟨0, 255, 255, 255⟩, ⟨255, 0, 255, 255⟩, ⟨255, 255, 0, 255⟩,
   ⟨0, 255, 0, 255⟩, ⟨255, 64, 255, 255⟩, ⟨64, 255, 64, 255⟩,
   ⟨255, 128, 0, 255⟩, ⟨128, 255, 255, 255⟩, ⟨255, 128, 255, 255⟩,
   ⟨255, 255, 128, 255⟩, ⟨128, 255, 128, 255⟩, ⟨255, 64, 128, 255⟩,
   ⟨64, 255, 255, 255⟩, ⟨255, 255, 64, 255⟩, ⟨128, 128, 255, 255⟩,
   ⟨255, 128, 128, 255⟩, ⟨192, 255, 64, 255⟩, ⟨255, 64, 192, 255⟩,
   ⟨64, 192, 255, 255⟩, ⟨255, 192, 64, 255⟩]

/-- Embedding of `generateRandomColor`: pick the drawn palette index. -/
def generateRandomColor (d : Draw) : Color := neonColors.getD d.colorIdx.val ⟨0, 0, 0, 0⟩

/-- Embedding of `(int)ceil(sqrt(n))` for a nonnegative `int n` (exact for the sizes the
program admits: `double` `sqrt` of such an `n` is correctly rounded, so its
ceiling is the least `k` with `k * k ≥ n`). -/
def ceilSqrtNat (n : ℕ) : ℕ :=
  if Nat.sqrt n * Nat.sqrt n = n then Nat.sqrt n else Nat.sqrt n + 1

/-- The seeder's grid side: `gridSize = (int)ceil(sqrt(numBalls))` followed
by `if (gridSize * gridSize < numBalls) gridSize++`. -/
def gridSizeOf (numBalls : ℕ) : ℕ :=
  let g := ceilSqrtNat numBalls
  if g * g < numBalls then g + 1 else g

/-- Embedding of `SPACING_X = (windowWidth - 100) / (gridSize - 1)`: C++ `int` division
(truncating), undefined — hence `none` — when `gridSize - 1 = 0`. -/
def spacingOf (dim : ℤ) (gridSize : ℕ) : Option ℚ :=
  if (gridSize : ℤ) - 1 = 0 then none
  else some ((Int.tdiv (dim - 100) ((gridSize : ℤ) - 1) : ℤ) : ℚ)

/-- The body of the seeding loop for the cell `(row, col)` when the running
counter is `ballCount`: nominal grid point, random offset, per-ball clamp to
`[radius + 5, dim - radius - 5]`, random velocity/mass/color, id
`ballCount + 1`. -/
def seedBall (w h : ℤ) (sx sy : ℚ) (draws : ℕ → Draw) (ballCount row col : ℕ) : Ball :=
  let d := draws ballCount
  let x0 := 50 + (col : ℚ) * sx + d.offX
  let y0 := 50 + (row : ℚ) * sy + d.offY
  let x := max (d.radius + 5) (min x0 ((w : ℚ) - d.radius - 5))
  let y := max (d.radius + 5) (min y0 ((h : ℚ) - d.radius - 5))
  let vx := d.speedX * (if d.signX then 1 else -1)
  let vy := d.speedY * (if d.signY then 1 else -1)
  { position := ⟨x, y⟩, velocity := ⟨vx, vy⟩, radius := d.radius,
    mass := d.mass, color := generateRandomColor d, id := (ballCount : ℤ) + 1 }

/-- The row-major cell order `(row, col)` of the seeder's nested loops. -/
def seedCells (gridSize : ℕ) : List (ℕ × ℕ) :=
  (List.range gridSize).flatMap (fun row => (List.range gridSize).map (fun col => (row, col)))

/-- The seeding loop: walk the cells, placing one ball per cell while
`ballCount < numBalls`, then stop (the loop conditions and `break`). -/
def seedLoop (w h : ℤ) (numBalls : ℕ) (sx sy : ℚ) (draws : ℕ → Draw) :
    List (ℕ × ℕ) → ℕ → List Ball
  | [], _ => []
  | cell :: rest, ballCount =>
    if ballCount < numBalls then
      seedBall w h sx sy draws ballCount cell.1 cell.2 ::
        seedLoop w h numBalls sx sy draws rest (ballCount + 1)
    else []

/-- Embedding of `PhysicsSimulation::initializeBalls`: grid size, the two spacing
divisions (which C++ performs unguarded — division by zero, i.e. `none`,
when `gridSize = 1`), then the seeding loop from cell `(0,0)` and count 0.
`minR`/`maxR` parametrize `radiusDist`; the drawn radius's membership in
`[minR, maxR]` is a hypothesis on `draws` in the theorems below. -/
def initializeBalls (w h : ℤ) (numBalls : ℕ) (_minR _maxR : ℚ) (draws : ℕ → Draw) :
    Option (List Ball) :=
  let g := gridSizeOf numBalls
  match spacingOf w g, spacingOf h g with
  | some sx, some sy => some (seedLoop w h numBalls sx sy draws (seedCells g) 0)
  | _, _ => none

/-- Embedding of `class PhysicsSimulation`: the world state. -/
structure PhysicsSimulation where
  balls : List Ball
  windowWidth : ℤ
  windowHeight : ℤ
  collisionCount : ℕ
  numBalls : ℕ
  minRadius : ℚ
  maxRadius : ℚ
deriving DecidableEq

/-- One step of the pairwise sweep at the index pair `(i, j)`: if the two
balls collide, replace them by the resolved pair and bump the collision
counter. -/
def sweepStep (sq : ℚ → ℚ) (st : List Ball × ℕ) (i j : ℕ) : List Ball × ℕ :=
  let bi := st.1.getD i default
  let bj := st.1.getD j default
  if Ball.isCollidingWith sq bi bj then
    let r := Ball.resolveCollision sq bi bj
    ((st.1.set i r.1).set j r.2, st.2 + 1)
  else st

/-- Embedding of `PhysicsSimulation::update(double deltaTime)`: advance and wall-bounce
every ball in order, then the nested `for i / for j = i+1` collision sweep,
adding the number of resolved pairs to `collisionCount`. -/
def PhysicsSimulation.update (sq : ℚ → ℚ) (sim : PhysicsSimulation)
    (deltaTime : ℚ) : PhysicsSimulation :=
  let advanced := sim.balls.map
    (fun b => (b.update deltaTime).bounceOffWalls sim.windowWidth sim.windowHeight)
  let n := advanced.length
  let st := (List.range n).foldl
    (fun st i =>
      (List.range' (i + 1) (n - (i + 1))).foldl (fun st j => sweepStep sq st i j) st)
    (advanced, 0)
  { sim with balls := st.1, collisionCount := sim.collisionCount + st.2 }

/-- The lexicographically ordered list of index pairs `(i, j)`, `i < j < n`,
as the spec describes the sweep: outer index ascending, inner index
ascending from `outer + 1`. -/
def pairsLex (n : ℕ) : List (ℕ × ℕ) :=
  (List.range n).flatMap (fun i => (List.range' (i + 1) (n - (i + 1))).map (fun j => (i, j)))

/-- The update pipeline as §4.3 of the spec words it: each body is
integrated and immediately wall-bounced, in collection order; afterwards one
flat sweep over the ordered pair list resolves each colliding pair and
counts it. Stated for comparison against `PhysicsSimulation.update`. -/
def PhysicsSimulation.updateSpec (sq : ℚ → ℚ) (sim : PhysicsSimulation)
    (deltaTime : ℚ) : PhysicsSimulation :=
  let advanced := sim.balls.map
    (fun b => (b.update deltaTime).bounceOffWalls sim.windowWidth sim.windowHeight)
  let st := (pairsLex advanced.length).foldl
    (fun st p => sweepStep sq st p.1 p.2) (advanced, 0)
  { sim with balls := st.1, collisionCount := sim.collisionCount + st.2 }

/-- Embedding of `PhysicsSimulation::reset`: re-run `initializeBalls` (which replaces the
ball collection and zeroes `collisionCount`) with the stored configuration. -/
def PhysicsSimulation.reset (sim : PhysicsSimulation) (draws : ℕ → Draw) :
    Option PhysicsSimulation :=
  (initializeBalls sim.windowWidth sim.windowHeight sim.numBalls
      sim.minRadius sim.maxRadius draws).map
    (fun bs => { sim with balls := bs, collisionCount := 0 })

/-! ### Helper lemmas and concrete inputs -/

lemma Vector2D.normSq_pos {v : Vector2D} (h : v ≠ ⟨0, 0⟩) : 0 < v.normSq := by
  obtain ⟨x, y⟩ := v
  have hxy : x ≠ 0 ∨ y ≠ 0 := by
    by_contra hc
    push_neg at hc
    exact h (by simp [hc.1, hc.2])
  unfold Vector2D.normSq
  rcases hxy with hx | hy
  · nlinarith [mul_self_pos.mpr hx, mul_self_nonneg y]
  · nlinarith [mul_self_pos.mpr hy, mul_self_nonneg x]

/-- A square-root oracle adequate for the demo inputs below (distance 5,
radicand 25). -/
def sqDemo : ℚ → ℚ := fun q => if q = 25 then 5 else 0

/-- Demo body at the origin. -/
def demoBallA : Ball :=
  { position := ⟨0, 0⟩, velocity := ⟨1, 2⟩, radius := 3, mass := 1,
    color := ⟨0, 255, 255, 255⟩, id := 1 }

/-- Demo body at `(3, 4)` (distance 5 from `demoBallA`). -/
def demoBallB : Ball :=
  { position := ⟨3, 4⟩, velocity := ⟨-2, -1⟩, radius := 3, mass := 2,
    color := ⟨255, 0, 255, 255⟩, id := 2 }

/-- Body resting exactly on the left wall of an 800×600 container, moving
outward (the spec's §8 scenario: radius 30, `position.x = 30`,
`velocity.x = -50`). -/
def wallBall : Ball :=
  { position := ⟨30, 300⟩, velocity := ⟨-50, 0⟩, radius := 30, mass := 1,
    color := ⟨0, 255, 0, 255⟩, id := 1 }

/-- Body wider than the 800-wide container: past both vertical walls at
once. -/
def wideBall : Ball :=
  { position := ⟨400, 300⟩, velocity := ⟨10, 0⟩, radius := 500, mass := 1,
    color := ⟨255, 255, 0, 255⟩, id := 1 }

/-- A constant stream of in-range draws (radius 7 ∈ [5, 10]). -/
def drawsConst : ℕ → Draw := fun _ =>
  { offX := 0, offY := 0, radius := 7, speedX := 100, speedY := 90,
    signX := true, signY := false, mass := 1, colorIdx := ⟨0, by norm_num⟩ }

/-! ### C1, C2, C3: collision resolution conserves momentum and energy and
separates the bodies -/

/-- The vector `distance * (1 / length)` is a unit vector (for the dot-product
quadratic form) when the square-root oracle is exact at `normSq` and the
length is nonzero. -/
lemma unit_normal_of_sqrt (sq : ℚ → ℚ) (u : Vector2D)
    (hq : sq u.normSq * sq u.normSq = u.normSq)
    (hlen : u.length sq ≠ 0) :
    (u.smul (1 / u.length sq)).dot (u.smul (1 / u.length sq)) = 1 := by
  obtain ⟨ux, uy⟩ := u
  simp only [Vector2D.smul, Vector2D.dot, Vector2D.length, Vector2D.normSq] at hq hlen ⊢
  field_simp
  linear_combination -hq

/-- The restitution-1 impulse along any unit normal `n` preserves the sum
of the kinetic-energy quadratic forms (`j` is the impulse scalar, pinned
down by `j * totalMass = 2 * velocityAlongNormal`). -/
lemma impulse_preserves_keSum (m1 m2 j : ℚ) (v1 v2 n : Vector2D)
    (hn : n.dot n = 1) (hj : j * (m1 + m2) = 2 * ((v1.sub v2).dot n)) :
    1 / 2 * m1 * (v1.sub (n.smul (j * m2))).normSq
      + 1 / 2 * m2 * (v2.add (n.smul (j * m1))).normSq
      = 1 / 2 * m1 * v1.normSq + 1 / 2 * m2 * v2.normSq := by
  obtain ⟨n1, n2⟩ := n
  obtain ⟨a1, a2⟩ := v1
  obtain ⟨c1, c2⟩ := v2
  simp only [Vector2D.sub, Vector2D.add, Vector2D.smul, Vector2D.dot,
    Vector2D.normSq] at hn hj ⊢
  linear_combination (j * m1 * m2 / 2) * hj + (j ^ 2 * m1 * m2 * (m1 + m2) / 2) * hn

/-- The mass-weighted impulse updates cancel exactly, whatever the normal
and impulse scalar are. -/
lemma impulse_preserves_momentum (m1 m2 j : ℚ) (v1 v2 n : Vector2D) :
    ((v1.sub (n.smul (j * m2))).smul m1).add ((v2.add (n.smul (j * m1))).smul m2)
      = (v1.smul m1).add (v2.smul m2) := by
  obtain ⟨n1, n2⟩ := n
  obtain ⟨a1, a2⟩ := v1
  obtain ⟨c1, c2⟩ := v2
  simp only [Vector2D.sub, Vector2D.add, Vector2D.smul, Vector2D.mk.injEq]
  constructor <;> ring

/-- Claim C1: for positive masses, `resolveCollision` leaves the total
momentum `m1*v1 + m2*v2` unchanged — the two velocity updates are equal and
opposite when weighted by the masses — for every input and every square-root
oracle, whether or not the impulse branch is taken. -/
theorem resolveCollision_conserves_momentum (sq : ℚ → ℚ) (b1 b2 : Ball)
    (h1 : 0 < b1.mass) (h2 : 0 < b2.mass) :
    ((Ball.resolveCollision sq b1 b2).1.velocity.smul
        (Ball.resolveCollision sq b1 b2).1.mass).add
      ((Ball.resolveCollision sq b1 b2).2.velocity.smul
        (Ball.resolveCollision sq b1 b2).2.mass)
      = (b1.velocity.smul b1.mass).add (b2.velocity.smul b2.mass) := by
  unfold Ball.resolveCollision
  dsimp only
  split_ifs with hd hv hv
  · rfl
  · exact impulse_preserves_momentum b1.mass b2.mass _ b1.velocity b2.velocity _
  · rfl
  · exact impulse_preserves_momentum b1.mass b2.mass _ b1.velocity b2.velocity _

/-- Witness for C1 at the demo pair (distance 5, radii 3+3, masses 1 and 2). -/
theorem resolveCollision_conserves_momentum_witness :
    0 < demoBallA.mass ∧ 0 < demoBallB.mass ∧
    ((Ball.resolveCollision sqDemo demoBallA demoBallB).1.velocity.smul
        (Ball.resolveCollision sqDemo demoBallA demoBallB).1.mass).add
      ((Ball.resolveCollision sqDemo demoBallA demoBallB).2.velocity.smul
        (Ball.resolveCollision sqDemo demoBallA demoBallB).2.mass)
      = (demoBallA.velocity.smul demoBallA.mass).add
          (demoBallB.velocity.smul demoBallB.mass) :=
  ⟨by norm_num [demoBallA], by norm_num [demoBallB],
   resolveCollision_conserves_momentum sqDemo demoBallA demoBallB
     (by norm_num [demoBallA]) (by norm_num [demoBallB])⟩

/-- Claim C2: for positive masses and an exact square root at the one point
the code takes it, `resolveCollision` leaves the total kinetic energy
`0.5*m1*|v1|^2 + 0.5*m2*|v2|^2` unchanged (restitution 1, exact
arithmetic). -/
theorem resolveCollision_conserves_energy (sq : ℚ → ℚ) (b1 b2 : Ball)
    (h1 : 0 < b1.mass) (h2 : 0 < b2.mass)
    (hsq : IsSqrtAt sq (b1.position.sub b2.position).normSq) :
    (Ball.resolveCollision sq b1 b2).1.ke + (Ball.resolveCollision sq b1 b2).2.ke
      = b1.ke + b2.ke := by
  have hM : b1.mass + b2.mass ≠ 0 := by positivity
  unfold Ball.resolveCollision
  dsimp only
  split_ifs with hd hv hv
  · rfl
  · -- degenerate branch: normal = (1, 0) * (1 / 1), a unit vector
    simp only [Ball.ke]
    refine impulse_preserves_keSum b1.mass b2.mass _ b1.velocity b2.velocity _
      (by norm_num [Vector2D.smul, Vector2D.dot]) (div_mul_cancel₀ _ hM)
  · rfl
  · -- generic branch: normal = distance * (1 / length), unit by `hsq`
    simp only [Ball.ke]
    exact impulse_preserves_keSum b1.mass b2.mass _ b1.velocity b2.velocity _
      (unit_normal_of_sqrt sq (b1.position.sub b2.position) hsq.2 hd)
      (div_mul_cancel₀ _ hM)

/-- Witness for C2 at the demo pair, with the square-root oracle exact at
the radicand 25. -/
theorem resolveCollision_conserves_energy_witness :
    IsSqrtAt sqDemo (demoBallA.position.sub demoBallB.position).normSq ∧
    (Ball.resolveCollision sqDemo demoBallA demoBallB).1.ke
      + (Ball.resolveCollision sqDemo demoBallA demoBallB).2.ke
      = demoBallA.ke + demoBallB.ke := by
  have hs : IsSqrtAt sqDemo (demoBallA.position.sub demoBallB.position).normSq := by
    constructor <;>
      norm_num [sqDemo, demoBallA, demoBallB, Vector2D.sub, Vector2D.normSq]
  exact ⟨hs, resolveCollision_conserves_energy sqDemo demoBallA demoBallB
    (by norm_num [demoBallA]) (by norm_num [demoBallB]) hs⟩

lemma Vector2D.sub_ne_zero {v w : Vector2D} (h : v ≠ w) : v.sub w ≠ ⟨0, 0⟩ := by
  obtain ⟨a, b⟩ := v
  obtain ⟨c, d⟩ := w
  intro hx
  apply h
  simp only [Vector2D.sub, Vector2D.mk.injEq] at hx
  simp only [Vector2D.mk.injEq]
  exact ⟨by linarith [hx.1], by linarith [hx.2]⟩

/-- Claim C3: for positive masses, non-coincident centers and an exact
square root at the radicand, the positional correction of
`resolveCollision` puts the centers exactly `r1 + r2` apart: the squared
distance between the updated centers equals `(r1 + r2)^2` (so the
separation postcondition holds with ε = 0 in exact arithmetic). -/
theorem resolveCollision_separates (sq : ℚ → ℚ) (b1 b2 : Ball)
    (h1 : 0 < b1.mass) (h2 : 0 < b2.mass)
    (hne : b1.position ≠ b2.position)
    (hsq : IsSqrtAt sq (b1.position.sub b2.position).normSq)
    (hover : (b1.position.sub b2.position).length sq < b1.radius + b2.radius) :
    ((Ball.resolveCollision sq b1 b2).1.position.sub
        (Ball.resolveCollision sq b1 b2).2.position).normSq
      = (b1.radius + b2.radius) ^ 2 := by
  have hM : b1.mass + b2.mass ≠ 0 := by positivity
  have hqpos : 0 < (b1.position.sub b2.position).normSq :=
    Vector2D.normSq_pos (Vector2D.sub_ne_zero hne)
  have hq : sq (b1.position.sub b2.position).normSq
      * sq (b1.position.sub b2.position).normSq
      = (b1.position.sub b2.position).normSq := hsq.2
  have hd : ¬ ((b1.position.sub b2.position).length sq = 0) := by
    intro h0
    rw [Vector2D.length] at h0
    rw [h0, mul_zero] at hq
    exact absurd hq.symm (ne_of_gt hqpos)
  unfold Ball.resolveCollision
  dsimp only
  simp only [if_neg hd]
  obtain ⟨⟨x1, y1⟩, v1, r1, m1, c1, i1⟩ := b1
  obtain ⟨⟨x2, y2⟩, v2, r2, m2, c2, i2⟩ := b2
  simp only [Vector2D.sub, Vector2D.length, Vector2D.normSq] at hq hd hM
  split_ifs with hv <;>
  · simp only [Vector2D.add, Vector2D.sub, Vector2D.smul, Vector2D.normSq,
      Vector2D.length]
    set L := sq ((x1 - x2) * (x1 - x2) + (y1 - y2) * (y1 - y2)) with hLdef
    have key : ∀ a b : ℚ,
        a + (a - b) * (1 / L) * ((r1 + r2 - L) * m2 / (m1 + m2))
          - (b - (a - b) * (1 / L) * ((r1 + r2 - L) * m1 / (m1 + m2)))
        = (a - b) * ((r1 + r2) / L) := by
      intro a b
      field_simp
      ring
    rw [key x1 x2, key y1 y2]
    have expand : (x1 - x2) * ((r1 + r2) / L) * ((x1 - x2) * ((r1 + r2) / L))
        + (y1 - y2) * ((r1 + r2) / L) * ((y1 - y2) * ((r1 + r2) / L))
        = ((x1 - x2) * (x1 - x2) + (y1 - y2) * (y1 - y2)) * ((r1 + r2) / L) ^ 2 := by
      ring
    rw [expand, ← hq]
    field_simp
    ring

/-- Witness for C3 at the demo pair: centers 5 apart, radii summing to 6. -/
theorem resolveCollision_separates_witness :
    demoBallA.position ≠ demoBallB.position ∧
    (demoBallA.position.sub demoBallB.position).length sqDemo
      < demoBallA.radius + demoBallB.radius ∧
    ((Ball.resolveCollision sqDemo demoBallA demoBallB).1.position.sub
        (Ball.resolveCollision sqDemo demoBallA demoBallB).2.position).normSq
      = (demoBallA.radius + demoBallB.radius) ^ 2 := by
  have hs : IsSqrtAt sqDemo (demoBallA.position.sub demoBallB.position).normSq := by
    constructor <;>
      norm_num [sqDemo, demoBallA, demoBallB, Vector2D.sub, Vector2D.normSq]
  refine ⟨by norm_num [demoBallA, demoBallB], ?_, ?_⟩
  · norm_num [sqDemo, demoBallA, demoBallB, Vector2D.sub, Vector2D.normSq,
      Vector2D.length]
  · exact resolveCollision_separates sqDemo demoBallA demoBallB
      (by norm_num [demoBallA]) (by norm_num [demoBallB])
      (by norm_num [demoBallA, demoBallB])
      hs
      (by norm_num [sqDemo, demoBallA, demoBallB, Vector2D.sub, Vector2D.normSq,
        Vector2D.length])

/-! ### C9: normalize is total and guarded -/

/-- Claim C9: `normalize()` is total with no error case: the zero vector is
sent to the zero vector, and every non-zero vector is sent to the vector
with both components divided by its length (the division is guarded by the
`length() == 0` test). `sq` is the square-root oracle, assumed correct at
the one point the code applies it. -/
theorem normalize_total_and_guarded (sq : ℚ → ℚ) (v : Vector2D)
    (hsq : IsSqrtAt sq v.normSq) :
    (v = ⟨0, 0⟩ → Vector2D.normalize sq v = ⟨0, 0⟩) ∧
    (v ≠ ⟨0, 0⟩ →
      Vector2D.normalize sq v = ⟨v.x / v.length sq, v.y / v.length sq⟩) := by
  constructor
  · intro h
    subst h
    have h0 : sq (Vector2D.normSq ⟨0, 0⟩) = 0 := by
      have h2 := hsq.2
      simp only [Vector2D.normSq] at h2 ⊢
      norm_num at h2 ⊢
      exact h2
    simp [Vector2D.normalize, Vector2D.length, h0]
  · intro hne
    have hq : 0 < v.normSq := Vector2D.normSq_pos hne
    have hlen : v.length sq ≠ 0 := by
      intro h0
      have h2 := hsq.2
      rw [Vector2D.length] at h0
      rw [h0, mul_zero] at h2
      exact absurd h2.symm (ne_of_gt hq)
    simp [Vector2D.normalize, hlen]

/-- Witness for C9 at the concrete vector `(3, 4)` (length 5). -/
theorem normalize_total_and_guarded_witness :
    IsSqrtAt sqDemo (Vector2D.normSq ⟨3, 4⟩) ∧
    Vector2D.normalize sqDemo ⟨3, 4⟩ = ⟨3 / 5, 4 / 5⟩ := by
  have hs : IsSqrtAt sqDemo (Vector2D.normSq ⟨3, 4⟩) := by
    constructor <;> norm_num [sqDemo, Vector2D.normSq]
  refine ⟨hs, ?_⟩
  have h := (normalize_total_and_guarded sqDemo ⟨3, 4⟩ hs).2 (by norm_num)
  rw [h]
  norm_num [Vector2D.length, Vector2D.normSq, sqDemo]

/-! ### C4: wall reflection is not idempotent on the corrected state -/

/-- Claim C4 counterexample: for the body resting exactly on the left wall,
the second `bounceOffWalls` call is not a no-op — it flips the velocity
again (the `<= 0` test still fires at the clamped position). -/
theorem bounceOffWalls_second_call_not_noop :
    Ball.bounceOffWalls (Ball.bounceOffWalls wallBall 800 600) 800 600
      ≠ Ball.bounceOffWalls wallBall 800 600 := by
  norm_num [Ball.bounceOffWalls, wallBall]

/-- Evaluation of `bounceOffWalls` for a body touching or past the left
wall and strictly inside on the y axis and the right wall. -/
lemma bounce_left_eval (px py vx vy r m : ℚ) (c : Color) (i w h : ℤ)
    (hx : px - r ≤ 0)
    (hy0 : ¬ (py - r ≤ 0))
    (hyh : ¬ (py + r ≥ (h : ℚ))) :
    Ball.bounceOffWalls ⟨⟨px, py⟩, ⟨vx, vy⟩, r, m, c, i⟩ w h
      = ⟨⟨r, py⟩, ⟨-vx, vy⟩, r, m, c, i⟩ := by
  unfold Ball.bounceOffWalls
  dsimp only
  rw [if_pos hx]
  dsimp only
  rw [if_neg hy0, if_neg hyh]

/-- Evaluation of `bounceOffWalls` for a body touching or past the right
wall and strictly inside on the y axis and the left wall. -/
lemma bounce_right_eval (px py vx vy r m : ℚ) (c : Color) (i w h : ℤ)
    (hx0 : ¬ (px - r ≤ 0))
    (hxw : px + r ≥ (w : ℚ))
    (hy0 : ¬ (py - r ≤ 0))
    (hyh : ¬ (py + r ≥ (h : ℚ))) :
    Ball.bounceOffWalls ⟨⟨px, py⟩, ⟨vx, vy⟩, r, m, c, i⟩ w h
      = ⟨⟨(w : ℚ) - r, py⟩, ⟨-vx, vy⟩, r, m, c, i⟩ := by
  unfold Ball.bounceOffWalls
  dsimp only
  rw [if_neg hx0, if_pos hxw]
  dsimp only
  rw [if_neg hy0, if_neg hyh]

/-- Evaluation of `bounceOffWalls` for a body touching or past the bottom
wall (y near 0) and strictly inside on the x axis. -/
lemma bounce_bottom_eval (px py vx vy r m : ℚ) (c : Color) (i w h : ℤ)
    (hx0 : ¬ (px - r ≤ 0))
    (hxw : ¬ (px + r ≥ (w : ℚ)))
    (hy : py - r ≤ 0) :
    Ball.bounceOffWalls ⟨⟨px, py⟩, ⟨vx, vy⟩, r, m, c, i⟩ w h
      = ⟨⟨px, r⟩, ⟨vx, -vy⟩, r, m, c, i⟩ := by
  unfold Ball.bounceOffWalls
  dsimp only
  rw [if_neg hx0, if_neg hxw]
  dsimp only
  rw [if_pos hy]

/-- Evaluation of `bounceOffWalls` for a body touching or past the top wall
and strictly inside on the x axis and the bottom wall. -/
lemma bounce_top_eval (px py vx vy r m : ℚ) (c : Color) (i w h : ℤ)
    (hx0 : ¬ (px - r ≤ 0))
    (hxw : ¬ (px + r ≥ (w : ℚ)))
    (hy0 : ¬ (py - r ≤ 0))
    (hyh : py + r ≥ (h : ℚ)) :
    Ball.bounceOffWalls ⟨⟨px, py⟩, ⟨vx, vy⟩, r, m, c, i⟩ w h
      = ⟨⟨px, (h : ℚ) - r⟩, ⟨vx, -vy⟩, r, m, c, i⟩ := by
  unfold Ball.bounceOffWalls
  dsimp only
  rw [if_neg hx0, if_neg hxw]
  dsimp only
  rw [if_neg hy0, if_pos hyh]

/-- Claim C4 (amended): a body exactly at any of the four container
boundaries with velocity pointing outward there (and strictly inside the
other walls) is clamped by one call — its position is unchanged, since the
edge already sits on the wall, and that axis's velocity component is
flipped; a second call leaves the position unchanged but negates that
axis's velocity component again, restoring the original body — an
involution, not a no-op. -/
theorem bounceOffWalls_boundary_involution (b : Ball) (w h : ℤ)
    (hbound :
      (b.position.x = b.radius ∧ b.velocity.x < 0
        ∧ b.position.x + b.radius < (w : ℚ)
        ∧ 0 < b.position.y - b.radius ∧ b.position.y + b.radius < (h : ℚ))
      ∨ (b.position.x = (w : ℚ) - b.radius ∧ 0 < b.velocity.x
        ∧ 0 < b.position.x - b.radius
        ∧ 0 < b.position.y - b.radius ∧ b.position.y + b.radius < (h : ℚ))
      ∨ (b.position.y = b.radius ∧ b.velocity.y < 0
        ∧ 0 < b.position.x - b.radius ∧ b.position.x + b.radius < (w : ℚ)
        ∧ b.position.y + b.radius < (h : ℚ))
      ∨ (b.position.y = (h : ℚ) - b.radius ∧ 0 < b.velocity.y
        ∧ 0 < b.position.x - b.radius ∧ b.position.x + b.radius < (w : ℚ)
        ∧ 0 < b.position.y - b.radius)) :
    (Ball.bounceOffWalls b w h).position = b.position ∧
    ((b.position.x = b.radius ∨ b.position.x = (w : ℚ) - b.radius) →
      (Ball.bounceOffWalls b w h).velocity = ⟨-b.velocity.x, b.velocity.y⟩) ∧
    ((b.position.y = b.radius ∨ b.position.y = (h : ℚ) - b.radius) →
      (Ball.bounceOffWalls b w h).velocity = ⟨b.velocity.x, -b.velocity.y⟩) ∧
    Ball.bounceOffWalls (Ball.bounceOffWalls b w h) w h = b := by
  obtain ⟨⟨px, py⟩, ⟨vx, vy⟩, r, m, c, i⟩ := b
  dsimp only at hbound ⊢
  rcases hbound with ⟨hpx, hvx, hfar, hy0, hyh⟩ | ⟨hpx, hvx, hx0, hy0, hyh⟩ |
    ⟨hpy, hvy, hx0, hxw, hyh⟩ | ⟨hpy, hvy, hx0, hxw, hy0⟩
  · -- left wall: edge exactly at 0, moving left
    have hy0' : ¬ (py - r ≤ 0) := not_le.mpr hy0
    have hyh' : ¬ (py + r ≥ (h : ℚ)) := not_le.mpr hyh
    have e1 := bounce_left_eval px py vx vy r m c i w h (by linarith) hy0' hyh'
    have e2 := bounce_left_eval r py (-vx) vy r m c i w h (by linarith) hy0' hyh'
    refine ⟨by rw [e1]; simp [hpx], fun _ => by rw [e1], fun hy => ?_,
      by rw [e1, e2]; simp [hpx]⟩
    rcases hy with hy | hy <;> linarith
  · -- right wall: edge exactly at the width, moving right
    have hx0' : ¬ (px - r ≤ 0) := not_le.mpr hx0
    have hy0' : ¬ (py - r ≤ 0) := not_le.mpr hy0
    have hyh' : ¬ (py + r ≥ (h : ℚ)) := not_le.mpr hyh
    have e1 := bounce_right_eval px py vx vy r m c i w h hx0' (by linarith) hy0' hyh'
    have e2 := bounce_right_eval ((w : ℚ) - r) py (-vx) vy r m c i w h
      (not_le.mpr (by linarith)) (by linarith) hy0' hyh'
    refine ⟨by rw [e1]; simp [hpx], fun _ => by rw [e1], fun hy => ?_,
      by rw [e1, e2]; simp [hpx]⟩
    rcases hy with hy | hy <;> linarith
  · -- bottom wall: edge exactly at 0 on the y axis, moving down
    have hx0' : ¬ (px - r ≤ 0) := not_le.mpr hx0
    have hxw' : ¬ (px + r ≥ (w : ℚ)) := not_le.mpr hxw
    have e1 := bounce_bottom_eval px py vx vy r m c i w h hx0' hxw' (by linarith)
    have e2 := bounce_bottom_eval px r vx (-vy) r m c i w h hx0' hxw' (by linarith)
    refine ⟨by rw [e1]; simp [hpy], fun hx => ?_, fun _ => by rw [e1],
      by rw [e1, e2]; simp [hpy]⟩
    rcases hx with hx | hx <;> linarith
  · -- top wall: edge exactly at the height, moving up
    have hx0' : ¬ (px - r ≤ 0) := not_le.mpr hx0
    have hxw' : ¬ (px + r ≥ (w : ℚ)) := not_le.mpr hxw
    have hy0' : ¬ (py - r ≤ 0) := not_le.mpr hy0
    have e1 := bounce_top_eval px py vx vy r m c i w h hx0' hxw' hy0' (by linarith)
    have e2 := bounce_top_eval px ((h : ℚ) - r) vx (-vy) r m c i w h hx0' hxw'
      (not_le.mpr (by linarith)) (by linarith)
    refine ⟨by rw [e1]; simp [hpy], fun hx => ?_, fun _ => by rw [e1],
      by rw [e1, e2]; simp [hpy]⟩
    rcases hx with hx | hx <;> linarith

/-- Witness for the amended C4 at the spec's §8 scenario body (left wall). -/
theorem bounceOffWalls_boundary_involution_witness :
    wallBall.position.x = wallBall.radius ∧
    ((Ball.bounceOffWalls wallBall 800 600).position = wallBall.position ∧
     ((wallBall.position.x = wallBall.radius
         ∨ wallBall.position.x = ((800 : ℤ) : ℚ) - wallBall.radius) →
       (Ball.bounceOffWalls wallBall 800 600).velocity
          = ⟨-wallBall.velocity.x, wallBall.velocity.y⟩) ∧
     ((wallBall.position.y = wallBall.radius
         ∨ wallBall.position.y = ((600 : ℤ) : ℚ) - wallBall.radius) →
       (Ball.bounceOffWalls wallBall 800 600).velocity
          = ⟨wallBall.velocity.x, -wallBall.velocity.y⟩) ∧
     Ball.bounceOffWalls (Ball.bounceOffWalls wallBall 800 600) 800 600 = wallBall) :=
  ⟨by norm_num [wallBall],
   bounceOffWalls_boundary_involution wallBall 800 600
     (Or.inl ⟨by norm_num [wallBall], by norm_num [wallBall], by norm_num [wallBall],
       by norm_num [wallBall], by norm_num [wallBall]⟩)⟩

/-! ### C10: per axis, the near wall takes precedence -/

/-- Claim C10: within each axis the near-wall and far-wall checks are an
`if / else if` pair, so a body simultaneously past both walls of one axis is
clamped and reflected only against the near wall at 0: on the x axis its
x-position becomes `radius` (not `width - radius`) and its x-velocity is
negated exactly once, and symmetrically on the y axis against `height`. -/
theorem bounceOffWalls_near_wall_precedence (b : Ball) (w h : ℤ) :
    (b.position.x - b.radius ≤ 0 → (w : ℚ) ≤ b.position.x + b.radius →
      (Ball.bounceOffWalls b w h).position.x = b.radius ∧
      (Ball.bounceOffWalls b w h).velocity.x = -b.velocity.x) ∧
    (b.position.y - b.radius ≤ 0 → (h : ℚ) ≤ b.position.y + b.radius →
      (Ball.bounceOffWalls b w h).position.y = b.radius ∧
      (Ball.bounceOffWalls b w h).velocity.y = -b.velocity.y) := by
  constructor
  · intro hnear hfar
    unfold Ball.bounceOffWalls
    rw [if_pos hnear]
    dsimp only
    split_ifs <;> simp
  · intro hnear hfar
    unfold Ball.bounceOffWalls
    dsimp only
    split_ifs <;> first | (exfalso; linarith) | simp

/-- Witness for C10: a ball of radius 500 centered in the 800×600 container
overlaps both walls of each axis; it is clamped to the near wall on both. -/
theorem bounceOffWalls_near_wall_precedence_witness :
    wideBall.position.x - wideBall.radius ≤ 0 ∧
    ((800 : ℤ) : ℚ) ≤ wideBall.position.x + wideBall.radius ∧
    wideBall.position.y - wideBall.radius ≤ 0 ∧
    ((600 : ℤ) : ℚ) ≤ wideBall.position.y + wideBall.radius ∧
    ((Ball.bounceOffWalls wideBall 800 600).position.x = wideBall.radius ∧
     (Ball.bounceOffWalls wideBall 800 600).velocity.x = -wideBall.velocity.x) ∧
    ((Ball.bounceOffWalls wideBall 800 600).position.y = wideBall.radius ∧
     (Ball.bounceOffWalls wideBall 800 600).velocity.y = -wideBall.velocity.y) :=
  ⟨by norm_num [wideBall], by norm_num [wideBall], by norm_num [wideBall],
   by norm_num [wideBall],
   (bounceOffWalls_near_wall_precedence wideBall 800 600).1
     (by norm_num [wideBall]) (by norm_num [wideBall]),
   (bounceOffWalls_near_wall_precedence wideBall 800 600).2
     (by norm_num [wideBall]) (by norm_num [wideBall])⟩

/-! ### C5: the seeder's spacing division is not guarded -/

/-- Claim C5 fails on the code: for a single ball the grid side is 1 and
`(dimension - 100) / (gridSize - 1)` is an `int` division by zero (undefined
behaviour in C++, `none` in this embedding) — there is no `gridSize == 1`
guard in `initializeBalls`. -/
theorem seeder_spacing_divides_by_zero :
    gridSizeOf 1 = 1 ∧
    spacingOf 800 (gridSizeOf 1) = none ∧
    spacingOf 600 (gridSizeOf 1) = none := by decide

/-! ### C6: seeder bounds -/

lemma natSqrt_eval (n k : ℕ) (h1 : k * k ≤ n) (h2 : n < (k + 1) * (k + 1)) :
    Nat.sqrt n = k := (Nat.eq_sqrt.mpr ⟨h1, h2⟩).symm

lemma le_ceilSqrtNat_sq (n : ℕ) : n ≤ ceilSqrtNat n * ceilSqrtNat n := by
  unfold ceilSqrtNat
  split_ifs with hsq
  · omega
  · exact le_of_lt (Nat.lt_succ_sqrt n)

lemma le_gridSizeOf_sq (n : ℕ) : n ≤ gridSizeOf n * gridSizeOf n := by
  unfold gridSizeOf
  dsimp only
  split_ifs with hlt
  · exact absurd hlt (not_lt.mpr (le_ceilSqrtNat_sq n))
  · omega

lemma two_le_gridSizeOf (n : ℕ) (hn : 2 ≤ n) : 2 ≤ gridSizeOf n := by
  by_contra hg
  push_neg at hg
  have h1 : gridSizeOf n ≤ 1 := by omega
  have h2 : gridSizeOf n * gridSizeOf n ≤ 1 * 1 := Nat.mul_le_mul h1 h1
  have h3 := le_gridSizeOf_sq n
  omega

lemma seedCells_length (g : ℕ) : (seedCells g).length = g * g := by
  simp [seedCells, Function.comp_def, List.map_const', List.sum_replicate, smul_eq_mul]

lemma seedLoop_length (w h : ℤ) (n : ℕ) (sx sy : ℚ) (draws : ℕ → Draw) :
    ∀ cells c, (seedLoop w h n sx sy draws cells c).length = min (n - c) cells.length := by
  intro cells
  induction cells with
  | nil => intro c; simp [seedLoop]
  | cons cell rest ih =>
    intro c
    rw [seedLoop]
    by_cases hc : c < n
    · rw [if_pos hc]
      simp only [List.length_cons, ih (c + 1)]
      omega
    · rw [if_neg hc]
      simp only [List.length_nil, List.length_cons]
      omega

lemma seedLoop_mem_bounds (w h : ℤ) (n : ℕ) (sx sy : ℚ) (draws : ℕ → Draw)
    (hw : ∀ k, 2 * (draws k).radius + 10 ≤ (w : ℚ))
    (hh : ∀ k, 2 * (draws k).radius + 10 ≤ (h : ℚ)) :
    ∀ cells c b, b ∈ seedLoop w h n sx sy draws cells c →
      (b.radius + 5 ≤ b.position.x ∧ b.position.x ≤ (w : ℚ) - b.radius - 5) ∧
      (b.radius + 5 ≤ b.position.y ∧ b.position.y ≤ (h : ℚ) - b.radius - 5) := by
  intro cells
  induction cells with
  | nil => intro c b hb; simp [seedLoop] at hb
  | cons cell rest ih =>
    intro c b hb
    rw [seedLoop] at hb
    by_cases hc : c < n
    · rw [if_pos hc] at hb
      rcases List.mem_cons.mp hb with hb | hb
      · subst hb
        unfold seedBall
        dsimp only
        refine ⟨⟨le_max_left _ _, max_le (by linarith [hw c]) (min_le_right _ _)⟩,
          ⟨le_max_left _ _, max_le (by linarith [hh c]) (min_le_right _ _)⟩⟩
      · exact ih (c + 1) b hb
    · rw [if_neg hc] at hb
      simp at hb

/-- Claim C6 (amended): for `count ≥ 2` (the `count = 1` configuration
aborts on the unguarded division by zero — see the counterexample) and a
container each drawn body fits into with its 5-unit margin
(`2*maxRadius + 10 ≤ dimension`), the seeder produces exactly `count`
bodies and every produced body's center lies within
`[radius + 5, dimension - radius - 5]` on both axes, for every sequence of
random draws whose radii lie in `[minRadius, maxRadius]`. -/
theorem initializeBalls_bounds (w h : ℤ) (n : ℕ) (minR maxR : ℚ) (draws : ℕ → Draw)
    (hn : 2 ≤ n)
    (hr : ∀ k, minR ≤ (draws k).radius ∧ (draws k).radius ≤ maxR)
    (hwfit : 2 * maxR + 10 ≤ (w : ℚ)) (hhfit : 2 * maxR + 10 ≤ (h : ℚ)) :
    ∃ bs, initializeBalls w h n minR maxR draws = some bs ∧ bs.length = n ∧
      ∀ b ∈ bs,
        (b.radius + 5 ≤ b.position.x ∧ b.position.x ≤ (w : ℚ) - b.radius - 5) ∧
        (b.radius + 5 ≤ b.position.y ∧ b.position.y ≤ (h : ℚ) - b.radius - 5) := by
  have hg2 : 2 ≤ gridSizeOf n := two_le_gridSizeOf n hn
  have hgz : ¬ ((gridSizeOf n : ℤ) - 1 = 0) := by
    have : (2 : ℤ) ≤ (gridSizeOf n : ℤ) := by exact_mod_cast hg2
    omega
  have hsx : spacingOf w (gridSizeOf n)
      = some ((Int.tdiv (w - 100) ((gridSizeOf n : ℤ) - 1) : ℤ) : ℚ) := by
    unfold spacingOf
    rw [if_neg hgz]
  have hsy : spacingOf h (gridSizeOf n)
      = some ((Int.tdiv (h - 100) ((gridSizeOf n : ℤ) - 1) : ℤ) : ℚ) := by
    unfold spacingOf
    rw [if_neg hgz]
  have hinit : initializeBalls w h n minR maxR draws
      = some (seedLoop w h n
          ((Int.tdiv (w - 100) ((gridSizeOf n : ℤ) - 1) : ℤ) : ℚ)
          ((Int.tdiv (h - 100) ((gridSizeOf n : ℤ) - 1) : ℤ) : ℚ)
          draws (seedCells (gridSizeOf n)) 0) := by
    unfold initializeBalls
    dsimp only
    rw [hsx, hsy]
  refine ⟨_, hinit, ?_, ?_⟩
  · rw [seedLoop_length, seedCells_length, Nat.sub_zero]
    exact min_eq_left (le_gridSizeOf_sq n)
  · intro b hb
    exact seedLoop_mem_bounds w h n _ _ draws
      (fun k => by linarith [(hr k).2]) (fun k => by linarith [(hr k).2])
      _ 0 b hb

/-- Witness for the amended C6: two balls, 800×600 container, radius range
[5, 10], constant draws of radius 7. -/
theorem initializeBalls_bounds_witness :
    ∃ bs, initializeBalls 800 600 2 5 10 drawsConst = some bs ∧ bs.length = 2 ∧
      ∀ b ∈ bs,
        (b.radius + 5 ≤ b.position.x ∧ b.position.x ≤ ((800 : ℤ) : ℚ) - b.radius - 5) ∧
        (b.radius + 5 ≤ b.position.y ∧ b.position.y ≤ ((600 : ℤ) : ℚ) - b.radius - 5) :=
  initializeBalls_bounds 800 600 2 5 10 drawsConst (by norm_num)
    (fun k => ⟨by norm_num [drawsConst], by norm_num [drawsConst]⟩)
    (by norm_num) (by norm_num)

/-- Claim C6 counterexample: at the concrete configuration `count = 1`
(800×600 container, radius range [5, 10]) the seeder does not produce
exactly `count` bodies — the spacing division by zero aborts it (`none`),
so no body list exists at all. -/
theorem initializeBalls_count_one_no_balls :
    ¬ ∃ bs, initializeBalls 800 600 1 5 10 drawsConst = some bs ∧ bs.length = 1 := by
  rintro ⟨bs, hsome, hlen⟩
  have hn : initializeBalls 800 600 1 5 10 drawsConst = none := by decide
  rw [hn] at hsome
  exact Option.noConfusion hsome

/-! ### C7: the update pipeline -/

lemma foldl_flatMap {α β γ : Type} (f : γ → β → γ) (g : α → List β)
    (l : List α) (init : γ) :
    (l.flatMap g).foldl f init = l.foldl (fun acc a => (g a).foldl f acc) init := by
  induction l generalizing init with
  | nil => rfl
  | cons a l ih =>
    rw [List.flatMap_cons, List.foldl_append, List.foldl_cons]
    exact ih _

/-- Claim C7: `update` first advances every body (integration immediately
followed by `bounceOffWalls`, in collection order) and only then runs one
pairwise sweep; the sweep is exactly a fold of `sweepStep` over the
lexicographically ordered pair list (`updateSpec`, transcribed from the
spec's wording), and that list contains precisely the pairs `(i, j)` with
`i < j < n` — each colliding pair resolved once and counted once. -/
theorem update_pipeline (sq : ℚ → ℚ) (sim : PhysicsSimulation) (dt : ℚ) :
    PhysicsSimulation.update sq sim dt = PhysicsSimulation.updateSpec sq sim dt ∧
    ∀ p : ℕ × ℕ, p ∈ pairsLex sim.balls.length ↔
      p.1 < p.2 ∧ p.2 < sim.balls.length := by
  constructor
  · unfold PhysicsSimulation.update PhysicsSimulation.updateSpec pairsLex
    dsimp only
    rw [foldl_flatMap]
    simp only [List.foldl_map]
  · intro p
    simp only [pairsLex, List.mem_flatMap, List.mem_map, List.mem_range,
      List.mem_range'_1]
    constructor
    · rintro ⟨i, hi, j, hj, rfl⟩
      dsimp only
      omega
    · rintro ⟨h1, h2⟩
      exact ⟨p.1, by omega, p.2, by omega, rfl⟩

/-! ### C8: reset replaces the bodies and zeroes the counter, nothing else -/

/-- Claim C8: a successful `reset` leaves the container dimensions and the
stored seeding configuration untouched, zeroes `collisionCount`, and
replaces the ball collection with a fresh seeding. -/
theorem reset_frame_effect (sim : PhysicsSimulation) (draws : ℕ → Draw)
    (sim' : PhysicsSimulation) (h : sim.reset draws = some sim') :
    sim'.windowWidth = sim.windowWidth ∧ sim'.windowHeight = sim.windowHeight ∧
    sim'.numBalls = sim.numBalls ∧ sim'.minRadius = sim.minRadius ∧
    sim'.maxRadius = sim.maxRadius ∧ sim'.collisionCount = 0 ∧
    initializeBalls sim.windowWidth sim.windowHeight sim.numBalls sim.minRadius
        sim.maxRadius draws = some sim'.balls := by
  unfold PhysicsSimulation.reset at h
  cases hinit : initializeBalls sim.windowWidth sim.windowHeight sim.numBalls
      sim.minRadius sim.maxRadius draws with
  | none =>
    rw [hinit] at h
    exact absurd h (by simp)
  | some bs =>
    rw [hinit] at h
    simp only [Option.map_some', Option.some.injEq] at h
    subst h
    exact ⟨rfl, rfl, rfl, rfl, rfl, rfl, rfl⟩

/-- The seeding the demo world's reset produces (grid side 2, spacings 700
and 500, constant draws of radius 7). -/
def demoSeeded : List Ball :=
  [{ position := ⟨50, 50⟩, velocity := ⟨100, -90⟩, radius := 7, mass := 1,
     color := ⟨0, 255, 255, 255⟩, id := 1 },
   { position := ⟨750, 50⟩, velocity := ⟨100, -90⟩, radius := 7, mass := 1,
     color := ⟨0, 255, 255, 255⟩, id := 2 }]

lemma initializeBalls_eval :
    initializeBalls 800 600 2 5 10 drawsConst = some demoSeeded := by
  have hs2 : Nat.sqrt 2 = 1 := natSqrt_eval 2 1 (by norm_num) (by norm_num)
  have hg : gridSizeOf 2 = 2 := by norm_num [gridSizeOf, ceilSqrtNat, hs2]
  unfold initializeBalls
  rw [hg]
  norm_num [spacingOf, Int.tdiv, seedCells, seedLoop, seedBall, drawsConst,
    generateRandomColor, neonColors, demoSeeded]

/-- A demo world: two balls already present, a nonzero collision count, and
the stored configuration (2 balls, radii in [5, 10]). -/
def demoSim : PhysicsSimulation :=
  { balls := [demoBallA, demoBallB], windowWidth := 800, windowHeight := 600,
    collisionCount := 7, numBalls := 2, minRadius := 5, maxRadius := 10 }

/-- Witness for C8: resetting the demo world. -/
theorem reset_frame_effect_witness :
    demoSim.reset drawsConst
      = some { demoSim with balls := demoSeeded, collisionCount := 0 } ∧
    ({ demoSim with balls := demoSeeded, collisionCount := 0 }
        : PhysicsSimulation).windowWidth = demoSim.windowWidth ∧
    ({ demoSim with balls := demoSeeded, collisionCount := 0 }
        : PhysicsSimulation).windowHeight = demoSim.windowHeight ∧
    ({ demoSim with balls := demoSeeded, collisionCount := 0 }
        : PhysicsSimulation).numBalls = demoSim.numBalls ∧
    ({ demoSim with balls := demoSeeded, collisionCount := 0 }
        : PhysicsSimulation).minRadius = demoSim.minRadius ∧
    ({ demoSim with balls := demoSeeded, collisionCount := 0 }
        : PhysicsSimulation).maxRadius = demoSim.maxRadius ∧
    ({ demoSim with balls := demoSeeded, collisionCount := 0 }
        : PhysicsSimulation).collisionCount = 0 ∧
    initializeBalls demoSim.windowWidth demoSim.windowHeight demoSim.numBalls
        demoSim.minRadius demoSim.maxRadius drawsConst
      = some ({ demoSim with balls := demoSeeded, collisionCount := 0 }
          : PhysicsSimulation).balls := by
  have hres : demoSim.reset drawsConst
      = some { demoSim with balls := demoSeeded, collisionCount := 0 } := by
    unfold PhysicsSimulation.reset
    rw [show demoSim.windowWidth = 800 from rfl, show demoSim.windowHeight = 600 from rfl,
      show demoSim.numBalls = 2 from rfl, show demoSim.minRadius = 5 from rfl,
      show demoSim.maxRadius = 10 from rfl, initializeBalls_eval]
    rfl
  have h := reset_frame_effect demoSim drawsConst
    { demoSim with balls := demoSeeded, collisionCount := 0 } hres
  exact ⟨hres, h.1, h.2.1, h.2.2.1, h.2.2.2.1, h.2.2.2.2.1, h.2.2.2.2.2.1,
    h.2.2.2.2.2.2⟩

end PhysicsSim
